import Mathlib

/-!
Shallow embedding of `vl6180x_multi/vl6180x_multi.py` (class `MultiSensor`).

Modelling conventions:
* I2C addresses are `Int` (Python ints; the range checks `0 <= addr <= 127`
  are explicit in the source).  GPIO channel numbers are `Nat`.
* Hardware effects are made explicit: the upfront `i2c.scan()` is a
  parameter `scan : Except Unit (List Int)` (`.error` = an `OSError` raised
  by the bus), the per-device temporary open + `_write_8` pair of
  `_realloc_addr` is summarised by a failure oracle `fail : Int → Bool`
  (`true` = that device's reassignment attempt raises `OSError`), and the
  final per-device `VL6180X(i2c, address=...)` constructor call is modelled
  by bus semantics — it succeeds exactly when a device answers at that
  address (address was busy at scan time, or was successfully reassigned)
  and no transport glitch occurs (`openFail` oracle).
* The Python dict comprehension `working_address` is modelled by an
  insertion-ordered association list with Python's duplicate-key rule:
  a repeated key keeps its first position and takes the last value.
-/

namespace VL6180xMulti

/-- Register for changing the device bus address (`SUBORDINATE_ADDR_REG = 0x212`). -/
def SUBORDINATE_ADDR_REG : Nat := 0x212

/-- `RPi.GPIO.BCM` pin-numbering constant. -/
def GPIO_BCM : Nat := 11

/-- `RPi.GPIO.BOARD` pin-numbering constant. -/
def GPIO_BOARD : Nat := 10

/-- Insert `(k, v)` into an insertion-ordered Python dict: if `k` is already a
key, its value is replaced in place (keeping the key's original position),
otherwise the pair is appended at the end. -/
def pyDictInsert (d : List (Int × Nat)) (k : Int) (v : Nat) : List (Int × Nat) :=
  match d with
  | [] => [(k, v)]
  | e :: rest => if e.1 = k then (k, v) :: rest else e :: pyDictInsert rest k v

/-- The dict comprehension of `_realloc_addr`:
`{addr: channel for addr, channel in zip(i2c_addresses, channels) if addr not in busy_addr}`. -/
def workingAddress (i2c_addresses : List Int) (channels : List Nat)
    (busy_addr : List Int) : List (Int × Nat) :=
  (i2c_addresses.zip channels).foldl
    (fun d p => if p.1 ∈ busy_addr then d else pyDictInsert d p.1 p.2) []

/-- First-match association-list lookup (Python dict lookup; our dicts have
unique keys by construction). -/
def lookupA (a : Int) : List (Int × Nat) → Option Nat
  | [] => none
  | e :: rest => if e.1 = a then some e.2 else lookupA a rest

/-- Observable hardware state during the enable/reassign loop of
`_realloc_addr`: which enable lines have been driven HIGH, and which target
addresses have been successfully written into `SUBORDINATE_ADDR_REG`. -/
structure SeqState where
  enabled : List Nat
  reassigned : List Int
  deriving Repr, DecidableEq

/-- One iteration of the `for i2c_address, channel in working_address.items()`
loop: drive the enable line HIGH, then attempt the temporary open at the
default address and the register write; on an `OSError` (oracle `fail`) the
device is left powered but not reassigned and the loop continues. -/
def reallocStep (fail : Int → Bool) (s : SeqState) (p : Int × Nat) : SeqState :=
  let s1 : SeqState := { s with enabled := s.enabled ++ [p.2] }
  if fail p.1 then s1 else { s1 with reassigned := s1.reassigned ++ [p.1] }

/-- The complete enable/reassign loop, started from all lines LOW. -/
def reallocRun (fail : Int → Bool) (wa : List (Int × Nat)) : SeqState :=
  wa.foldl (reallocStep fail) ⟨[], []⟩

/-- Every intermediate hardware state of the enable/reassign loop, including
the instant after an enable line is driven HIGH but before the reassignment
write for that device has been attempted. -/
def reallocSnapshots (fail : Int → Bool) : List (Int × Nat) → SeqState → List SeqState
  | [], s => [s]
  | p :: rest, s =>
    s :: ({ s with enabled := s.enabled ++ [p.2] } : SeqState) ::
      reallocSnapshots fail rest (reallocStep fail s p)

/-- Addresses answering on the bus after the enable/reassign loop: the
addresses already busy at scan time plus the successfully reassigned ones. -/
def liveAddrs (busy_addr : List Int) (reassigned : List Int) : List Int :=
  busy_addr ++ reassigned

/-- Whether `adafruit_vl6180x.VL6180X(i2c, address=a, offset=...)` succeeds:
a device must answer at `a` and no transport glitch may occur. -/
def openOk (live : List Int) (openFail : Int → Bool) (a : Int) : Bool :=
  decide (a ∈ live) && !openFail a

/-- Result of the final handle-building loop of `_realloc_addr`: the ordered
list of addresses at which a constructor call was attempted, and the ordered
list of `(address, offset)` pairs of the sensors that were built. -/
structure BuildResult where
  attempts : List Int
  sensors : List (Int × Int)
  deriving Repr, DecidableEq

/-- One iteration of `for i2c_address, offset in zip(i2c_addresses, offsets)`:
attempt the constructor; append the sensor on success, swallow the `OSError`
otherwise. -/
def buildStep (ok : Int → Bool) (r : BuildResult) (p : Int × Int) : BuildResult :=
  { attempts := r.attempts ++ [p.1],
    sensors := if ok p.1 then r.sensors ++ [p] else r.sensors }

/-- The final handle-building loop of `_realloc_addr`. -/
def buildLoop (ok : Int → Bool) (pairs : List (Int × Int)) : BuildResult :=
  pairs.foldl (buildStep ok) ⟨[], []⟩

/-- `MultiSensor._realloc_addr`: scan snapshot `busy_addr`, the
`working_address` partition, the enable/reassign loop, then the final
handle-building loop over all input entries.  Returns the `sensors` list
as `(address, offset)` pairs. -/
def reallocSensors (channels : List Nat) (i2c_addresses offsets : List Int)
    (busy_addr : List Int) (fail openFail : Int → Bool) : List (Int × Int) :=
  let wa := workingAddress i2c_addresses channels busy_addr
  let st := reallocRun fail wa
  (buildLoop (openOk (liveAddrs busy_addr st.reassigned) openFail)
    (i2c_addresses.zip offsets)).sensors

/-- Outcome kinds of `MultiSensor.__init__`: an `AssertionError` from one of
the precondition asserts (configuration error, with its message), or a
re-raised hardware exception (the `except Exception ... raise` block). -/
inductive InitError where
  | config (msg : String)
  | transport
  deriving Repr, DecidableEq

/-- `MultiSensor.__init__`.  The asserts run in source order; note that
`assert isinstance(offsets, list)` precedes the `if offsets is None` default,
so the `none` case fails with "offsets must be a list" and the
`offsets = [0] * len(ce_gpios)` line is unreachable.  Only after all asserts
pass are `GPIO.setmode`/`setup`/`output` and `_realloc_addr` executed; any
exception there is printed and re-raised. -/
def initMultiSensor (ce_gpios : List Nat) (new_i2c_addresses : List Int)
    (offsets : Option (List Int)) (mode_gpio : Nat) (default_i2c_address : Int)
    (scan : Except Unit (List Int)) (fail openFail : Int → Bool) :
    Except InitError (List (Int × Int)) :=
  if ce_gpios.length ≠ new_i2c_addresses.length then
    .error (.config "ce_gpios and new_i2c_addresses must be the same size")
  else
    match offsets with
    | none => .error (.config "offsets must be a list")
    | some offs =>
      if ce_gpios.length ≠ offs.length then
        .error (.config "ce_gpios and offsets must be the same size")
      else if ¬ new_i2c_addresses.all (fun a => 0 ≤ a && a ≤ 127) then
        .error (.config "new_i2c_addresses must be in the range 0-127 inclusive")
      else if mode_gpio ≠ GPIO_BCM ∧ mode_gpio ≠ GPIO_BOARD then
        .error (.config "mode_gpio must be GPIO.BCM or GPIO.BOARD")
      else if ¬ (0 ≤ default_i2c_address ∧ default_i2c_address ≤ 127) then
        .error (.config "default_i2c_address must be in the range 0-127 inclusive")
      else
        match scan with
        | .error _ => .error .transport
        | .ok busy_addr =>
          .ok (reallocSensors ce_gpios new_i2c_addresses offs busy_addr fail openFail)

/-- A sequenced sensor as seen by the query methods: the outcomes of its
`.range`, `.read_lux(gain)` and `.range_status` reads (`.error` = the read
raises; the lux float payload is modelled abstractly as an `Int`). -/
structure Sensor where
  rangeVal : Except Unit Int
  luxVal : Int → Except Unit Int
  statusVal : Except Unit Int

/-- Python list indexing `xs[i]`: non-negative indices in `[0, n)`, negative
indices in `[-n, 0)` count from the end; anything else raises `IndexError`
(here `none`). -/
def pyIndex {α : Type} (xs : List α) (i : Int) : Option α :=
  if 0 ≤ i then xs.get? i.toNat
  else if -(xs.length : Int) ≤ i then xs.get? ((xs.length : Int) + i).toNat
  else none

/-- `MultiSensor.get_range`: `self.sensors[idx].range` with `IndexError` and
any other exception mapped to `None`. -/
def get_range (sensors : List Sensor) (idx_sensor : Int) : Option Int :=
  match pyIndex sensors idx_sensor with
  | none => none
  | some s =>
    match s.rangeVal with
    | .error _ => none
    | .ok v => some v

/-- `MultiSensor.get_lux`: `self.sensors[idx].read_lux(gain)` with
`IndexError` and any other exception mapped to `None`. -/
def get_lux (sensors : List Sensor) (idx_sensor : Int) (gain : Int) : Option Int :=
  match pyIndex sensors idx_sensor with
  | none => none
  | some s =>
    match s.luxVal gain with
    | .error _ => none
    | .ok v => some v

/-- `MultiSensor.get_range_status`: `self.sensors[idx].range_status` with
`IndexError` and any other exception mapped to `None`. -/
def get_range_status (sensors : List Sensor) (idx_sensor : Int) : Option Int :=
  match pyIndex sensors idx_sensor with
  | none => none
  | some s =>
    match s.statusVal with
    | .error _ => none
    | .ok v => some v

/-- Folding plain dict insertion over a list of pairs (the comprehension with
the busy-filter already applied). -/
def dictFold (pairs : List (Int × Nat)) (d : List (Int × Nat)) : List (Int × Nat) :=
  pairs.foldl (fun d p => pyDictInsert d p.1 p.2) d

theorem pyDictInsert_mem {d : List (Int × Nat)} {k : Int} {v : Nat} :
    ∀ e ∈ pyDictInsert d k v, e = (k, v) ∨ e ∈ d := by
  induction d with
  | nil => intro e he; simp [pyDictInsert] at he; exact Or.inl he
  | cons hd tl ih =>
    intro e he
    simp only [pyDictInsert] at he
    by_cases hk : hd.1 = k
    · simp [hk] at he
      rcases he with h | h
      · exact Or.inl (by simp [h])
      · exact Or.inr (List.mem_cons_of_mem _ h)
    · simp [hk] at he
      rcases he with h | h
      · exact Or.inr (by simp [h])
      · rcases ih e h with h' | h'
        · exact Or.inl h'
        · exact Or.inr (List.mem_cons_of_mem _ h')

theorem map_fst_pyDictInsert (d : List (Int × Nat)) (k : Int) (v : Nat) :
    (pyDictInsert d k v).map Prod.fst =
      if k ∈ d.map Prod.fst then d.map Prod.fst else d.map Prod.fst ++ [k] := by
  induction d with
  | nil => simp [pyDictInsert]
  | cons hd tl ih =>
    by_cases hk : hd.1 = k
    · simp [pyDictInsert, hk]
    · simp only [pyDictInsert, if_neg hk, List.map_cons, ih]
      have : (k ∈ hd.1 :: tl.map Prod.fst) ↔ (k ∈ tl.map Prod.fst) := by
        constructor
        · intro h; rcases List.mem_cons.1 h with h | h
          · exact absurd h.symm hk
          · exact h
        · exact List.mem_cons_of_mem _
      by_cases hmem : k ∈ tl.map Prod.fst
      · simp [hmem, this, hmem]
      · simp [hmem, this]

theorem lookupA_pyDictInsert (d : List (Int × Nat)) (k : Int) (v : Nat) (a : Int) :
    lookupA a (pyDictInsert d k v) = if a = k then some v else lookupA a d := by
  induction d with
  | nil =>
    by_cases h : a = k
    · simp [pyDictInsert, lookupA, h]
    · simp [pyDictInsert, lookupA, h, Ne.symm h]
  | cons hd tl ih =>
    by_cases hk : hd.1 = k
    · by_cases ha : a = k
      · simp [pyDictInsert, lookupA, hk, ha]
      · simp [pyDictInsert, lookupA, hk, ha, Ne.symm ha]
    · simp only [pyDictInsert, if_neg hk, lookupA]
      by_cases ha : hd.1 = a
      · have hak : ¬a = k := fun h => hk (ha.trans h)
        simp [ha, hak]
      · simp [ha, ih]

theorem lookupA_mem {d : List (Int × Nat)} {a : Int} {v : Nat}
    (h : lookupA a d = some v) : (a, v) ∈ d := by
  induction d with
  | nil => simp [lookupA] at h
  | cons hd tl ih =>
    simp only [lookupA] at h
    by_cases ha : hd.1 = a
    · simp [ha] at h
      exact List.mem_cons.2 (Or.inl (by rw [← ha, ← h]))
    · simp [ha] at h
      exact List.mem_cons_of_mem _ (ih h)

theorem mem_lookupA {d : List (Int × Nat)} {a : Int} {v : Nat}
    (hnd : (d.map Prod.fst).Nodup) (h : (a, v) ∈ d) : lookupA a d = some v := by
  induction d with
  | nil => simp at h
  | cons hd tl ih =>
    simp only [List.map_cons, List.nodup_cons] at hnd
    rcases List.mem_cons.1 h with h' | h'
    · simp [lookupA, ← h']
    · have ha : hd.1 ≠ a := by
        intro he
        exact hnd.1 (he ▸ (List.mem_map_of_mem Prod.fst h'))
      simp [lookupA, ha, ih hnd.2 h']

theorem dictFold_mem : ∀ (pairs d : List (Int × Nat)), ∀ e ∈ dictFold pairs d,
    e ∈ pairs ∨ e ∈ d := by
  intro pairs
  induction pairs with
  | nil => intro d e he; exact Or.inr he
  | cons p rest ih =>
    intro d e he
    rcases ih (pyDictInsert d p.1 p.2) e he with h | h
    · exact Or.inl (List.mem_cons_of_mem _ h)
    · rcases pyDictInsert_mem e h with h' | h'
      · exact Or.inl (by simp [h'])
      · exact Or.inr h'

theorem dictFold_keys_nodup : ∀ (pairs d : List (Int × Nat)),
    (d.map Prod.fst).Nodup → ((dictFold pairs d).map Prod.fst).Nodup := by
  intro pairs
  induction pairs with
  | nil => intro d h; exact h
  | cons p rest ih =>
    intro d h
    refine ih (pyDictInsert d p.1 p.2) ?_
    rw [map_fst_pyDictInsert]
    by_cases hm : p.1 ∈ d.map Prod.fst
    · simpa [hm] using h
    · rw [if_neg hm, List.nodup_append]
      exact ⟨h, List.nodup_singleton _, fun x hx hx' => hm ((List.mem_singleton.1 hx') ▸ hx)⟩

theorem dictFold_lookupA : ∀ (pairs d : List (Int × Nat)) (a : Int),
    lookupA a (dictFold pairs d) =
      ((pairs.filter fun p => decide (p.1 = a)).foldl (fun _ q => some q.2)
        (lookupA a d)) := by
  intro pairs
  induction pairs with
  | nil => intro d a; rfl
  | cons p rest ih =>
    intro d a
    show lookupA a (dictFold rest (pyDictInsert d p.1 p.2)) = _
    rw [ih, lookupA_pyDictInsert]
    by_cases hp : p.1 = a
    · simp [hp, List.filter_cons]
    · rw [if_neg (fun h : a = p.1 => hp h.symm)]
      simp [List.filter_cons, hp]

theorem foldl_override_getLast? : ∀ (l : List (Int × Nat)) (init : Option Nat),
    l.foldl (fun _ q => some q.2) init =
      (match l.getLast? with
       | some q => some q.2
       | none => init) := by
  intro l
  induction l with
  | nil => intro init; rfl
  | cons p rest ih =>
    intro init
    show rest.foldl (fun _ q => some q.2) (some p.2) = _
    rw [ih]
    cases rest with
    | nil => rfl
    | cons r rs => simp [List.getLast?]

theorem foldIf_eq_dictFold_filter (busy_addr : List Int) :
    ∀ (pairs d : List (Int × Nat)),
      pairs.foldl (fun d p => if p.1 ∈ busy_addr then d else pyDictInsert d p.1 p.2) d =
        dictFold (pairs.filter fun p => decide (p.1 ∉ busy_addr)) d := by
  intro pairs
  induction pairs with
  | nil => intro d; rfl
  | cons p rest ih =>
    intro d
    by_cases hb : p.1 ∈ busy_addr
    · simp only [List.foldl_cons, if_pos hb, List.filter_cons]
      rw [ih]
      simp [hb]
    · simp only [List.foldl_cons, if_neg hb, List.filter_cons]
      rw [ih]
      simp [dictFold, hb]

theorem workingAddress_eq_dictFold (i2c_addresses : List Int) (channels : List Nat)
    (busy_addr : List Int) :
    workingAddress i2c_addresses channels busy_addr =
      dictFold ((i2c_addresses.zip channels).filter fun p => decide (p.1 ∉ busy_addr)) [] :=
  foldIf_eq_dictFold_filter busy_addr (i2c_addresses.zip channels) []

theorem reallocFoldl_enabled (fail : Int → Bool) :
    ∀ (wa : List (Int × Nat)) (s : SeqState),
      (wa.foldl (reallocStep fail) s).enabled = s.enabled ++ wa.map Prod.snd := by
  intro wa
  induction wa with
  | nil => intro s; simp
  | cons p rest ih =>
    intro s
    simp only [List.foldl_cons, List.map_cons, ih]
    by_cases hf : fail p.1
    · simp [reallocStep, hf]
    · simp [reallocStep, hf]

theorem reallocFoldl_reassigned (fail : Int → Bool) :
    ∀ (wa : List (Int × Nat)) (s : SeqState),
      (wa.foldl (reallocStep fail) s).reassigned =
        s.reassigned ++ (wa.filter fun p => !fail p.1).map Prod.fst := by
  intro wa
  induction wa with
  | nil => intro s; simp
  | cons p rest ih =>
    intro s
    simp only [List.foldl_cons, List.filter_cons, ih]
    by_cases hf : fail p.1
    · simp [reallocStep, hf]
    · simp [reallocStep, hf]

theorem reallocRun_enabled (fail : Int → Bool) (wa : List (Int × Nat)) :
    (reallocRun fail wa).enabled = wa.map Prod.snd := by
  show (wa.foldl (reallocStep fail) ⟨[], []⟩).enabled = _
  rw [reallocFoldl_enabled]; rfl

theorem reallocRun_reassigned (fail : Int → Bool) (wa : List (Int × Nat)) :
    (reallocRun fail wa).reassigned = (wa.filter fun p => !fail p.1).map Prod.fst := by
  show (wa.foldl (reallocStep fail) ⟨[], []⟩).reassigned = _
  rw [reallocFoldl_reassigned]; rfl

theorem buildFoldl_sensors (ok : Int → Bool) :
    ∀ (pairs : List (Int × Int)) (r : BuildResult),
      (pairs.foldl (buildStep ok) r).sensors = r.sensors ++ pairs.filter fun p => ok p.1 := by
  intro pairs
  induction pairs with
  | nil => intro r; simp
  | cons p rest ih =>
    intro r
    simp only [List.foldl_cons, List.filter_cons, ih]
    by_cases ho : ok p.1
    · simp [buildStep, ho]
    · simp [buildStep, ho]

theorem buildFoldl_attempts (ok : Int → Bool) :
    ∀ (pairs : List (Int × Int)) (r : BuildResult),
      (pairs.foldl (buildStep ok) r).attempts = r.attempts ++ pairs.map Prod.fst := by
  intro pairs
  induction pairs with
  | nil => intro r; simp
  | cons p rest ih =>
    intro r
    simp only [List.foldl_cons, List.map_cons, ih]
    simp [buildStep]

theorem buildLoop_sensors (ok : Int → Bool) (pairs : List (Int × Int)) :
    (buildLoop ok pairs).sensors = pairs.filter fun p => ok p.1 := by
  show (pairs.foldl (buildStep ok) ⟨[], []⟩).sensors = _
  rw [buildFoldl_sensors]; rfl

theorem buildLoop_attempts (ok : Int → Bool) (pairs : List (Int × Int)) :
    (buildLoop ok pairs).attempts = pairs.map Prod.fst := by
  show (pairs.foldl (buildStep ok) ⟨[], []⟩).attempts = _
  rw [buildFoldl_attempts]; rfl

theorem reallocSensors_eq (channels : List Nat) (i2c_addresses offsets : List Int)
    (busy_addr : List Int) (fail openFail : Int → Bool) :
    reallocSensors channels i2c_addresses offsets busy_addr fail openFail =
      (i2c_addresses.zip offsets).filter fun p =>
        openOk
          (liveAddrs busy_addr
            (reallocRun fail (workingAddress i2c_addresses channels busy_addr)).reassigned)
          openFail p.1 := by
  show (buildLoop _ _).sensors = _
  rw [buildLoop_sensors]

/-- Every entry of the pending dict comes from a zipped input pair whose
target address was not reported busy by the scan. -/
theorem workingAddress_mem {i2c_addresses : List Int} {channels : List Nat}
    {busy_addr : List Int} :
    ∀ e ∈ workingAddress i2c_addresses channels busy_addr,
      e ∈ i2c_addresses.zip channels ∧ e.1 ∉ busy_addr := by
  intro e he
  rw [workingAddress_eq_dictFold] at he
  rcases dictFold_mem _ _ e he with h | h
  · have := List.mem_filter.1 h
    exact ⟨this.1, by simpa using this.2⟩
  · simp at h

/-- The pending dict has pairwise-distinct keys. -/
theorem workingAddress_keys_nodup (i2c_addresses : List Int) (channels : List Nat)
    (busy_addr : List Int) :
    ((workingAddress i2c_addresses channels busy_addr).map Prod.fst).Nodup := by
  rw [workingAddress_eq_dictFold]
  exact dictFold_keys_nodup _ [] (by simp)

theorem initMultiSensor_ok_eq {ce_gpios : List Nat} {new_i2c_addresses offsets : List Int}
    {mode_gpio : Nat} {default_i2c_address : Int} {busy_addr : List Int}
    {fail openFail : Int → Bool} {l : List (Int × Int)}
    (h : initMultiSensor ce_gpios new_i2c_addresses (some offsets) mode_gpio
      default_i2c_address (.ok busy_addr) fail openFail = .ok l) :
    l = reallocSensors ce_gpios new_i2c_addresses offsets busy_addr fail openFail := by
  simp only [initMultiSensor] at h
  split_ifs at h <;> simp_all

/-- An index outside `[-n, n)` raises `IndexError` in Python list indexing. -/
theorem pyIndex_eq_none {α : Type} (xs : List α) (i : Int)
    (h : i < -(xs.length : Int) ∨ (xs.length : Int) ≤ i) : pyIndex xs i = none := by
  rcases h with h | h
  · have h0 : ¬ 0 ≤ i := by omega
    have h1 : ¬ -(xs.length : Int) ≤ i := by omega
    simp [pyIndex, h0, h1]
  · have h0 : 0 ≤ i := by omega
    have h2 : xs.get? i.toNat = none := List.get?_eq_none.2 (by omega)
    rw [pyIndex, if_pos h0, h2]

/-- C3: the claim's behaviour is the source's evident intent (the signature
default is `offsets=None`, the docstring calls it optional, and the
`offsets = [0] * len(ce_gpios)` default line exists) but
`assert isinstance(offsets, list)` runs first, so omitting `offsets` raises
`AssertionError("offsets must be a list")` instead of defaulting to zeros:
evaluation of `__init__` at an otherwise-valid input with `offsets` omitted. -/
theorem C3_omitted_offsets_asserts :
    initMultiSensor [4] [48] none GPIO_BCM 0x29 (.ok []) (fun _ => false) (fun _ => false)
      = .error (.config "offsets must be a list") := rfl

/-- C5: whenever `__init__` succeeds, the returned sensor collection is an
order-preserving subsequence of the zipped input `(address, offset)` entries:
every returned device corresponds to an input entry and relative input order
is preserved. -/
theorem C5_result_subsequence (ce_gpios : List Nat) (new_i2c_addresses offsets : List Int)
    (mode_gpio : Nat) (default_i2c_address : Int) (busy_addr : List Int)
    (fail openFail : Int → Bool) (l : List (Int × Int))
    (hdistinct : new_i2c_addresses.Nodup)
    (h : initMultiSensor ce_gpios new_i2c_addresses (some offsets) mode_gpio
      default_i2c_address (.ok busy_addr) fail openFail = .ok l) :
    l.Sublist (new_i2c_addresses.zip offsets) := by
  rw [initMultiSensor_ok_eq h, reallocSensors_eq]
  exact List.filter_sublist _

theorem C5_witness :
    ([48, 49] : List Int).Nodup
    ∧ initMultiSensor [1, 2] [48, 49] (some [0, 0]) 11 41 (.ok [])
        (fun _ => false) (fun _ => false) = .ok [(48, 0), (49, 0)]
    ∧ ([(48, 0), (49, 0)] : List (Int × Int)).Sublist (([48, 49] : List Int).zip [0, 0]) :=
  ⟨by decide, rfl,
    C5_result_subsequence [1, 2] [48, 49] [0, 0] 11 41 [] (fun _ => false) (fun _ => false)
      [(48, 0), (49, 0)] (by decide) rfl⟩

/-- C6 counterexample: a transport error during the upfront bus scan is *not*
recovered locally — `__init__` catches it, prints, and re-raises, so the
failure propagates to the caller instead of a collection being returned. -/
theorem C6_counterexample_scan_error_propagates :
    initMultiSensor [4] [48] (some [0]) GPIO_BCM 0x29 (.error ())
      (fun _ => false) (fun _ => false) = .error .transport := rfl

/-- C6 amended: when the upfront bus scan itself succeeds, every transport
failure during a reassignment register write or a handle open is recovered
locally for the affected device — for *all* failure oracles, `__init__`
returns a (possibly shorter) collection rather than propagating.  (A
transport error during the scan, by contrast, is re-raised to the caller.) -/
theorem C6_amended_write_open_failures_recovered (ce_gpios : List Nat)
    (new_i2c_addresses offsets : List Int) (mode_gpio : Nat)
    (default_i2c_address : Int) (busy_addr : List Int) (fail openFail : Int → Bool)
    (h1 : ce_gpios.length = new_i2c_addresses.length)
    (h2 : ce_gpios.length = offsets.length)
    (h3 : ∀ a ∈ new_i2c_addresses, 0 ≤ a ∧ a ≤ 127)
    (h4 : mode_gpio = GPIO_BCM ∨ mode_gpio = GPIO_BOARD)
    (h5 : 0 ≤ default_i2c_address ∧ default_i2c_address ≤ 127) :
    initMultiSensor ce_gpios new_i2c_addresses (some offsets) mode_gpio
      default_i2c_address (.ok busy_addr) fail openFail
      = .ok (reallocSensors ce_gpios new_i2c_addresses offsets busy_addr fail openFail) := by
  have hall : new_i2c_addresses.all (fun a => 0 ≤ a && a ≤ 127) = true :=
    List.all_eq_true.2 fun a ha => by
      have := h3 a ha
      simp [this.1, this.2]
  have hmode : ¬ (mode_gpio ≠ GPIO_BCM ∧ mode_gpio ≠ GPIO_BOARD) := by
    rcases h4 with h | h <;> simp [h]
  simp only [initMultiSensor]
  rw [if_neg (by omega), if_neg (by omega), if_neg (not_not_intro hall), if_neg hmode,
    if_neg (not_not_intro h5)]

theorem C6_amended_witness :
    ([1, 2] : List Nat).length = ([48, 49] : List Int).length
    ∧ initMultiSensor [1, 2] [48, 49] (some [0, 0]) 11 41 (.ok [])
        (fun _ => true) (fun _ => true)
        = .ok (reallocSensors [1, 2] [48, 49] [0, 0] [] (fun _ => true) (fun _ => true)) :=
  ⟨by decide,
    C6_amended_write_open_failures_recovered [1, 2] [48, 49] [0, 0] 11 41 []
      (fun _ => true) (fun _ => true) (by decide) (by decide)
      (by decide) (Or.inl rfl) (by decide)⟩

/-- C7: if the enable-line list and address list differ in length, or any
target address or the default address lies outside 0–127, or the
pin-numbering mode is unsupported, `__init__` fails with a configuration
error (an assert), and the outcome is independent of every hardware oracle —
no scan, no enable line, no bus transaction is consulted. -/
theorem C7_config_error_fail_fast (ce_gpios : List Nat) (new_i2c_addresses : List Int)
    (offsets : Option (List Int)) (mode_gpio : Nat) (default_i2c_address : Int)
    (hbad : ce_gpios.length ≠ new_i2c_addresses.length
      ∨ (∃ a ∈ new_i2c_addresses, a < 0 ∨ 127 < a)
      ∨ default_i2c_address < 0 ∨ 127 < default_i2c_address
      ∨ (mode_gpio ≠ GPIO_BCM ∧ mode_gpio ≠ GPIO_BOARD)) :
    ∃ msg, ∀ (scan : Except Unit (List Int)) (fail openFail : Int → Bool),
      initMultiSensor ce_gpios new_i2c_addresses offsets mode_gpio default_i2c_address
        scan fail openFail = .error (.config msg) := by
  by_cases h1 : ce_gpios.length ≠ new_i2c_addresses.length
  · exact ⟨"ce_gpios and new_i2c_addresses must be the same size",
      fun scan fail openFail => by simp only [initMultiSensor, if_pos h1]⟩
  cases offsets with
  | none =>
    exact ⟨"offsets must be a list",
      fun scan fail openFail => by simp only [initMultiSensor, if_neg h1]⟩
  | some offs =>
    by_cases h2 : ce_gpios.length ≠ offs.length
    · exact ⟨"ce_gpios and offsets must be the same size", fun scan fail openFail => by
        simp only [initMultiSensor, if_neg h1, if_pos h2]⟩
    by_cases h3 : new_i2c_addresses.all (fun a => 0 ≤ a && a ≤ 127) = true
    · by_cases h4 : mode_gpio ≠ GPIO_BCM ∧ mode_gpio ≠ GPIO_BOARD
      · exact ⟨"mode_gpio must be GPIO.BCM or GPIO.BOARD", fun scan fail openFail => by
          simp only [initMultiSensor, if_neg h1, if_neg h2, if_neg (not_not_intro h3),
            if_pos h4]⟩
      by_cases h5 : ¬ (0 ≤ default_i2c_address ∧ default_i2c_address ≤ 127)
      · exact ⟨"default_i2c_address must be in the range 0-127 inclusive",
          fun scan fail openFail => by
          simp only [initMultiSensor, if_neg h1, if_neg h2, if_neg (not_not_intro h3),
            if_neg h4, if_pos h5]⟩
      · exfalso
        rcases hbad with h | ⟨a, ha, hr⟩ | h | h | h
        · exact h1 h
        · have := List.all_eq_true.1 h3 a ha
          rcases hr with hr | hr <;> simp at this <;> omega
        · exact h5 (by omega)
        · exact h5 (by omega)
        · exact h4 h
    · exact ⟨"new_i2c_addresses must be in the range 0-127 inclusive",
        fun scan fail openFail => by
        simp only [initMultiSensor, if_neg h1, if_neg h2, if_pos h3]⟩

theorem C7_witness :
    (([1] : List Nat).length ≠ ([] : List Int).length
      ∨ (∃ a ∈ ([] : List Int), a < 0 ∨ 127 < a) ∨ (41 : Int) < 0 ∨ 127 < (41 : Int)
      ∨ ((11 : Nat) ≠ GPIO_BCM ∧ (11 : Nat) ≠ GPIO_BOARD))
    ∧ ∃ msg, ∀ (scan : Except Unit (List Int)) (fail openFail : Int → Bool),
        initMultiSensor [1] [] (some []) 11 41 scan fail openFail = .error (.config msg) :=
  ⟨Or.inl (by decide), C7_config_error_fail_fast [1] [] (some []) 11 41 (Or.inl (by decide))⟩

/-- C8: for each query operation, an out-of-range index (one Python's list
indexing rejects) or a transport failure of the underlying read yields `None`;
the operations are total functions into `Option`, so no exception escapes. -/
theorem C8_queries_absorb_errors (sensors : List Sensor) (idx_sensor gain : Int) :
    ((idx_sensor < -(sensors.length : Int) ∨ (sensors.length : Int) ≤ idx_sensor) →
      get_range sensors idx_sensor = none
      ∧ get_lux sensors idx_sensor gain = none
      ∧ get_range_status sensors idx_sensor = none)
    ∧ ∀ s, pyIndex sensors idx_sensor = some s →
        (s.rangeVal = .error () → get_range sensors idx_sensor = none)
        ∧ (s.luxVal gain = .error () → get_lux sensors idx_sensor gain = none)
        ∧ (s.statusVal = .error () → get_range_status sensors idx_sensor = none) := by
  constructor
  · intro h
    have hn := pyIndex_eq_none sensors idx_sensor h
    exact ⟨by simp [get_range, hn], by simp [get_lux, hn], by simp [get_range_status, hn]⟩
  · intro s hs
    refine ⟨fun h => ?_, fun h => ?_, fun h => ?_⟩
    · simp [get_range, hs, h]
    · simp [get_lux, hs, h]
    · simp [get_range_status, hs, h]

theorem C8_witness :
    ((3 : Int) < -(([] : List Sensor).length : Int) ∨ (([] : List Sensor).length : Int) ≤ 3)
    ∧ get_range [] 3 = none ∧ get_lux [] 3 1 = none ∧ get_range_status [] 3 = none :=
  ⟨Or.inr (by decide), (C8_queries_absorb_errors [] 3 1).1 (Or.inr (by decide))⟩

/-- C10: a negative index `i` with `-n ≤ i < 0` is accepted by Python list
indexing, so the query returns the reading of the sensor at position `n + i`
rather than `None`. -/
theorem C10_negative_index_wraps (sensors : List Sensor) (i : Int) (s : Sensor) (v : Int)
    (hlo : -(sensors.length : Int) ≤ i) (hhi : i < 0)
    (hget : sensors.get? ((sensors.length : Int) + i).toNat = some s)
    (hread : s.rangeVal = .ok v) :
    get_range sensors i = some v := by
  have h0 : ¬ 0 ≤ i := by omega
  have hget' : sensors[((sensors.length : Int) + i).toNat]? = some s := by simpa using hget
  simp [get_range, pyIndex, h0, hlo, hget', hread]

theorem C10_witness :
    -(([⟨.ok 5, fun _ => .ok 0, .ok 0⟩] : List Sensor).length : Int) ≤ -1
    ∧ get_range [⟨.ok 5, fun _ => .ok 0, .ok 0⟩] (-1) = some 5 :=
  ⟨by decide,
    C10_negative_index_wraps [⟨.ok 5, fun _ => .ok 0, .ok 0⟩] (-1)
      ⟨.ok 5, fun _ => .ok 0, .ok 0⟩ 5 (by decide) (by decide) rfl rfl⟩

/-- C1: if the reassignment write for a pending device `(a, c)` fails, every
pending device still has its enable line driven HIGH by the end of the loop
(so all later devices are processed), the failed device's enable line remains
asserted, every input entry at address `a` is absent from the returned
collection (no device answers there), and every pending device whose
reassignment write and final handle open succeed appears in it. -/
theorem C1_reassign_failure_isolated (channels : List Nat)
    (i2c_addresses offsets busy_addr : List Int) (fail openFail : Int → Bool)
    (a : Int) (c : Nat)
    (hmem : (a, c) ∈ workingAddress i2c_addresses channels busy_addr)
    (hfail : fail a = true) :
    (∀ q ∈ workingAddress i2c_addresses channels busy_addr,
      q.2 ∈ (reallocRun fail (workingAddress i2c_addresses channels busy_addr)).enabled)
    ∧ c ∈ (reallocRun fail (workingAddress i2c_addresses channels busy_addr)).enabled
    ∧ (∀ r ∈ i2c_addresses.zip offsets, r.1 = a →
        r ∉ reallocSensors channels i2c_addresses offsets busy_addr fail openFail)
    ∧ (∀ q ∈ workingAddress i2c_addresses channels busy_addr,
        fail q.1 = false → openFail q.1 = false →
        ∀ r ∈ i2c_addresses.zip offsets, r.1 = q.1 →
          r ∈ reallocSensors channels i2c_addresses offsets busy_addr fail openFail) := by
  have henabled : ∀ q ∈ workingAddress i2c_addresses channels busy_addr,
      q.2 ∈ (reallocRun fail (workingAddress i2c_addresses channels busy_addr)).enabled := by
    intro q hq
    rw [reallocRun_enabled]
    exact List.mem_map_of_mem Prod.snd hq
  refine ⟨henabled, henabled (a, c) hmem, ?_, ?_⟩
  · intro r hr hra hcontra
    rw [reallocSensors_eq] at hcontra
    have hok := (List.mem_filter.1 hcontra).2
    rw [hra] at hok
    simp only [openOk, liveAddrs, Bool.and_eq_true, decide_eq_true_eq,
      List.mem_append] at hok
    rcases hok.1 with hb | hre
    · exact (workingAddress_mem (a, c) hmem).2 hb
    · rw [reallocRun_reassigned] at hre
      rcases List.mem_map.1 hre with ⟨p, hp, hpa⟩
      have := (List.mem_filter.1 hp).2
      rw [hpa, hfail] at this
      simp at this
  · intro q hq hqf hqo r hr hra
    rw [reallocSensors_eq]
    refine List.mem_filter.2 ⟨hr, ?_⟩
    have hre : q.1 ∈ (reallocRun fail
        (workingAddress i2c_addresses channels busy_addr)).reassigned := by
      rw [reallocRun_reassigned]
      exact List.mem_map_of_mem Prod.fst (List.mem_filter.2 ⟨hq, by simp [hqf]⟩)
    simp [openOk, liveAddrs, hra, hre, hqo]

theorem C1_witness :
    ((48 : Int), (1 : Nat)) ∈ workingAddress [48, 49] [1, 2] []
    ∧ ((∀ q ∈ workingAddress [48, 49] [1, 2] [],
          q.2 ∈ (reallocRun (fun x => decide (x = 48))
            (workingAddress [48, 49] [1, 2] [])).enabled)
      ∧ (1 : Nat) ∈ (reallocRun (fun x => decide (x = 48))
            (workingAddress [48, 49] [1, 2] [])).enabled
      ∧ (∀ r ∈ ([48, 49] : List Int).zip ([5, 7] : List Int), r.1 = 48 →
          r ∉ reallocSensors [1, 2] [48, 49] [5, 7] []
                (fun x => decide (x = 48)) (fun _ => false))
      ∧ (∀ q ∈ workingAddress [48, 49] [1, 2] [],
          (fun x => decide (x = (48 : Int))) q.1 = false → (fun _ => false) q.1 = false →
          ∀ r ∈ ([48, 49] : List Int).zip ([5, 7] : List Int), r.1 = q.1 →
            r ∈ reallocSensors [1, 2] [48, 49] [5, 7] []
                  (fun x => decide (x = 48)) (fun _ => false))) :=
  ⟨by decide,
    C1_reassign_failure_isolated [1, 2] [48, 49] [5, 7] []
      (fun x => decide (x = 48)) (fun _ => false) 48 1 (by decide) (by decide)⟩

/-- C4: a device entry `(a, c)` whose target address was reported by the
upfront scan is never given a reassignment attempt (its address is not a key
of the pending dict) and its enable line is never driven HIGH, yet the final
loop still opens a handle at `a`; when that open does not glitch, every input
entry at address `a` appears in the returned collection. -/
theorem C4_already_live_skipped (channels : List Nat)
    (i2c_addresses offsets busy_addr : List Int) (fail openFail : Int → Bool)
    (a : Int) (c : Nat)
    (hlen : channels.length ≤ i2c_addresses.length)
    (hch : channels.Nodup)
    (hpair : (a, c) ∈ i2c_addresses.zip channels)
    (hbusy : a ∈ busy_addr) :
    a ∉ (workingAddress i2c_addresses channels busy_addr).map Prod.fst
    ∧ c ∉ (reallocRun fail (workingAddress i2c_addresses channels busy_addr)).enabled
    ∧ (openFail a = false →
        ∀ r ∈ i2c_addresses.zip offsets, r.1 = a →
          r ∈ reallocSensors channels i2c_addresses offsets busy_addr fail openFail) := by
  have hsnd : ((i2c_addresses.zip channels).map Prod.snd).Nodup := by
    rw [List.map_snd_zip _ _ hlen]
    exact hch
  refine ⟨?_, ?_, ?_⟩
  · intro hcontra
    rcases List.mem_map.1 hcontra with ⟨e, he, hea⟩
    exact (workingAddress_mem e he).2 (hea ▸ hbusy)
  · intro hcontra
    rw [reallocRun_enabled] at hcontra
    rcases List.mem_map.1 hcontra with ⟨e, he, hec⟩
    have hez := (workingAddress_mem e he).1
    have : e = (a, c) := List.inj_on_of_nodup_map hsnd hez hpair hec
    exact (workingAddress_mem e he).2 (by rw [this]; exact hbusy)
  · intro hof r hr hra
    rw [reallocSensors_eq]
    refine List.mem_filter.2 ⟨hr, ?_⟩
    simp [openOk, liveAddrs, hra, hbusy, hof]

theorem C4_witness :
    ((48 : Int), (1 : Nat)) ∈ ([48, 49] : List Int).zip ([1, 2] : List Nat)
    ∧ ((48 : Int) ∉ (workingAddress [48, 49] [1, 2] [48]).map Prod.fst
      ∧ (1 : Nat) ∉ (reallocRun (fun _ => false) (workingAddress [48, 49] [1, 2] [48])).enabled
      ∧ ((fun _ => false) (48 : Int) = false →
          ∀ r ∈ ([48, 49] : List Int).zip ([5, 7] : List Int), r.1 = 48 →
            r ∈ reallocSensors [1, 2] [48, 49] [5, 7] [48]
                  (fun _ => false) (fun _ => false))) :=
  ⟨by decide,
    C4_already_live_skipped [1, 2] [48, 49] [5, 7] [48] (fun _ => false) (fun _ => false)
      48 1 (by decide) (by decide) (by decide) (by decide)⟩

theorem workingAddress_snd_nodup (i2c_addresses : List Int) (channels : List Nat)
    (busy_addr : List Int) (hlen : channels.length ≤ i2c_addresses.length)
    (hch : channels.Nodup) :
    ((workingAddress i2c_addresses channels busy_addr).map Prod.snd).Nodup := by
  have hzip : ((i2c_addresses.zip channels).map Prod.snd).Nodup := by
    rw [List.map_snd_zip _ _ hlen]
    exact hch
  have hwa : (workingAddress i2c_addresses channels busy_addr).Nodup :=
    (workingAddress_keys_nodup i2c_addresses channels busy_addr).of_map
  exact List.Nodup.map_on
    (fun x hx y hy h =>
      List.inj_on_of_nodup_map hzip (workingAddress_mem x hx).1 (workingAddress_mem y hy).1 h)
    hwa

/-- Core invariant of the enable/reassign loop: starting from a state in
which every enabled pending device is already reassigned or failed, no
intermediate state ever shows two distinct pending devices that are enabled,
un-reassigned and whose reassignment did not fail. -/
theorem snapshots_at_most_one_aux (fail : Int → Bool) (wa : List (Int × Nat))
    (hnd : (wa.map Prod.snd).Nodup) :
    ∀ (l : List (Int × Nat)), (∀ e ∈ l, e ∈ wa) →
      ∀ (s : SeqState),
        (∀ p ∈ wa, p.2 ∈ s.enabled → p.1 ∈ s.reassigned ∨ fail p.1 = true) →
        ∀ t ∈ reallocSnapshots fail l s,
          ∀ p ∈ wa, ∀ q ∈ wa, p ≠ q →
            p.2 ∈ t.enabled → p.1 ∉ t.reassigned → fail p.1 = false →
            q.2 ∈ t.enabled → q.1 ∉ t.reassigned → fail q.1 = false → False := by
  have hinj : ∀ p ∈ wa, ∀ q ∈ wa, p.2 = q.2 → p = q :=
    fun p hp q hq h => List.inj_on_of_nodup_map hnd hp hq h
  intro l
  induction l with
  | nil =>
    intro hsub s hgood t ht p hp q hq hne hpe hpr hpf hqe hqr hqf
    simp only [reallocSnapshots, List.mem_singleton] at ht
    subst ht
    rcases hgood p hp hpe with h | h
    · exact hpr h
    · rw [hpf] at h
      simp at h
  | cons e rest ih =>
    intro hsub s hgood t ht
    have hewa : e ∈ wa := hsub e (List.mem_cons_self e rest)
    simp only [reallocSnapshots, List.mem_cons] at ht
    rcases ht with rfl | rfl | ht
    · intro p hp q hq hne hpe hpr hpf hqe hqr hqf
      rcases hgood p hp hpe with h | h
      · exact hpr h
      · rw [hpf] at h
        simp at h
    · intro p hp q hq hne hpe hpr hpf hqe hqr hqf
      have hone : ∀ r ∈ wa, r.2 ∈ s.enabled ++ [e.2] → r.1 ∉ s.reassigned →
          fail r.1 = false → r = e := by
        intro r hr hre hrr hrf
        rcases List.mem_append.1 hre with h | h
        · rcases hgood r hr h with h' | h'
          · exact absurd h' hrr
          · rw [hrf] at h'
            simp at h'
        · exact hinj r hr e hewa (List.mem_singleton.1 h)
      have hp' := hone p hp hpe hpr hpf
      have hq' := hone q hq hqe hqr hqf
      exact hne (hp'.trans hq'.symm)
    · refine ih (fun x hx => hsub x (List.mem_cons_of_mem e hx)) (reallocStep fail s e)
        ?_ t ht
      intro p hp hpe
      by_cases hf : fail e.1 = true
      · simp only [reallocStep, if_pos hf] at hpe ⊢
        rcases List.mem_append.1 hpe with h | h
        · rcases hgood p hp h with h' | h'
          · exact Or.inl h'
          · exact Or.inr h'
        · have : p = e := hinj p hp e hewa (List.mem_singleton.1 h)
          exact Or.inr (this ▸ hf)
      · simp only [reallocStep, if_neg hf] at hpe ⊢
        rcases List.mem_append.1 hpe with h | h
        · rcases hgood p hp h with h' | h'
          · exact Or.inl (List.mem_append.2 (Or.inl h'))
          · exact Or.inr h'
        · have : p = e := hinj p hp e hewa (List.mem_singleton.1 h)
          exact Or.inl (List.mem_append.2 (Or.inr (by rw [this]; exact List.mem_singleton_self _)))

/-- C2 counterexample: with two pending devices where the first device's
reassignment write fails, the instant after the second enable line is driven
HIGH shows two distinct pending devices both enabled and both un-reassigned —
the claimed invariant is violated on the per-device failure path. -/
theorem C2_counterexample_two_unreassigned_enabled :
    ∃ t ∈ reallocSnapshots (fun x => decide (x = 48))
        (workingAddress [48, 49] [1, 2] []) ⟨[], []⟩,
      ∃ p ∈ workingAddress [48, 49] [1, 2] [],
        ∃ q ∈ workingAddress [48, 49] [1, 2] [],
          p ≠ q ∧ p.2 ∈ t.enabled ∧ p.1 ∉ t.reassigned
            ∧ q.2 ∈ t.enabled ∧ q.1 ∉ t.reassigned := by decide

/-- C2 amended: among the devices whose reassignment does not fail, at most
one is enabled-but-unreassigned at any instant of the loop (with
pairwise-distinct enable lines); a device whose reassignment write failed,
however, stays enabled and un-reassigned while later devices are enabled. -/
theorem C2_amended_at_most_one_pending (channels : List Nat)
    (i2c_addresses busy_addr : List Int) (fail : Int → Bool)
    (hlen : channels.length ≤ i2c_addresses.length)
    (hch : channels.Nodup) :
    ∀ t ∈ reallocSnapshots fail (workingAddress i2c_addresses channels busy_addr) ⟨[], []⟩,
      ∀ p ∈ workingAddress i2c_addresses channels busy_addr,
      ∀ q ∈ workingAddress i2c_addresses channels busy_addr, p ≠ q →
        p.2 ∈ t.enabled → p.1 ∉ t.reassigned → fail p.1 = false →
        q.2 ∈ t.enabled → q.1 ∉ t.reassigned → fail q.1 = false → False :=
  snapshots_at_most_one_aux fail (workingAddress i2c_addresses channels busy_addr)
    (workingAddress_snd_nodup i2c_addresses channels busy_addr hlen hch)
    (workingAddress i2c_addresses channels busy_addr) (fun _ he => he)
    ⟨[], []⟩ (fun p _ hpe => by simp at hpe)

theorem C2_amended_witness :
    ([1, 2] : List Nat).Nodup
    ∧ ∀ t ∈ reallocSnapshots (fun x => decide (x = 48))
          (workingAddress [48, 49] [1, 2] []) ⟨[], []⟩,
        ∀ p ∈ workingAddress [48, 49] [1, 2] [],
        ∀ q ∈ workingAddress [48, 49] [1, 2] [], p ≠ q →
          p.2 ∈ t.enabled → p.1 ∉ t.reassigned → (fun x => decide (x = (48 : Int))) p.1 = false →
          q.2 ∈ t.enabled → q.1 ∉ t.reassigned → (fun x => decide (x = (48 : Int))) q.1 = false →
          False :=
  ⟨by decide,
    C2_amended_at_most_one_pending [1, 2] [48, 49] [] (fun x => decide (x = 48))
      (by decide) (by decide)⟩

theorem pyDictInsert_key_mem (d : List (Int × Nat)) (k : Int) (v : Nat) :
    k ∈ (pyDictInsert d k v).map Prod.fst := by
  rw [map_fst_pyDictInsert]
  by_cases h : k ∈ d.map Prod.fst
  · simpa [h] using h
  · simp [h]

theorem pyDictInsert_keys_mono {d : List (Int × Nat)} {a : Int} (k : Int) (v : Nat)
    (h : a ∈ d.map Prod.fst) : a ∈ (pyDictInsert d k v).map Prod.fst := by
  rw [map_fst_pyDictInsert]
  by_cases hk : k ∈ d.map Prod.fst
  · simpa [hk] using h
  · simp [hk, h]

theorem dictFold_keys_mono : ∀ (pairs d : List (Int × Nat)) (a : Int),
    a ∈ d.map Prod.fst → a ∈ (dictFold pairs d).map Prod.fst := by
  intro pairs
  induction pairs with
  | nil => intro d a h; exact h
  | cons p rest ih =>
    intro d a h
    exact ih (pyDictInsert d p.1 p.2) a (pyDictInsert_keys_mono p.1 p.2 h)

theorem dictFold_key_mem : ∀ (pairs d : List (Int × Nat)) (p : Int × Nat),
    p ∈ pairs → p.1 ∈ (dictFold pairs d).map Prod.fst := by
  intro pairs
  induction pairs with
  | nil => intro d p h; simp at h
  | cons e rest ih =>
    intro d p h
    rcases List.mem_cons.1 h with h' | h'
    · exact dictFold_keys_mono rest (pyDictInsert d e.1 e.2) p.1
        (h' ▸ pyDictInsert_key_mem d e.1 e.2)
    · exact ih (pyDictInsert d e.1 e.2) p h'

/-- A zipped input pair whose address is not busy contributes its address as
a key of the pending dict. -/
theorem workingAddress_key_mem {i2c_addresses : List Int} {channels : List Nat}
    {busy_addr : List Int} {p : Int × Nat}
    (hp : p ∈ i2c_addresses.zip channels) (hnb : p.1 ∉ busy_addr) :
    p.1 ∈ (workingAddress i2c_addresses channels busy_addr).map Prod.fst := by
  rw [workingAddress_eq_dictFold]
  exact dictFold_key_mem _ [] p (List.mem_filter.2 ⟨hp, by simpa using hnb⟩)

/-- Python's duplicate-key rule at the level of the source comprehension:
the pending dict maps a non-busy address to the channel of the *last* input
entry carrying that address. -/
theorem workingAddress_lookupA (i2c_addresses : List Int) (channels : List Nat)
    (busy_addr : List Int) (a : Int) (hnb : a ∉ busy_addr) :
    lookupA a (workingAddress i2c_addresses channels busy_addr) =
      (((i2c_addresses.zip channels).filter fun p => decide (p.1 = a)).getLast?).map
        Prod.snd := by
  rw [workingAddress_eq_dictFold, dictFold_lookupA, foldl_override_getLast?]
  have hff : ((i2c_addresses.zip channels).filter fun p => decide (p.1 ∉ busy_addr)).filter
      (fun p => decide (p.1 = a)) =
      (i2c_addresses.zip channels).filter fun p => decide (p.1 = a) := by
    rw [List.filter_filter]
    refine List.filter_congr fun x _ => ?_
    by_cases hx : x.1 = a
    · simp [hx, hnb]
    · simp [hx]
  rw [hff]
  cases h : ((i2c_addresses.zip channels).filter fun p => decide (p.1 = a)).getLast? with
  | none => simp [lookupA]
  | some q => simp

/-- C9: when two or more input entries share a target address `a` absent from
the scan, the pending dict holds exactly one reassignment attempt for `a`,
bound to the enable channel of the *last* such entry (which is the only one
driven HIGH); the channel of every earlier duplicate is never driven HIGH;
and the final handle-building loop still attempts one open per input entry. -/
theorem C9_duplicate_addresses_last_wins (channels : List Nat)
    (i2c_addresses offsets busy_addr : List Int) (fail openFail : Int → Bool) (a : Int)
    (hlen : channels.length ≤ i2c_addresses.length)
    (hlen2 : i2c_addresses.length ≤ offsets.length)
    (hch : channels.Nodup)
    (hnb : a ∉ busy_addr)
    (hdup : 2 ≤ ((i2c_addresses.zip channels).filter fun p => decide (p.1 = a)).length) :
    (∃ c : Nat,
      ((i2c_addresses.zip channels).filter fun p => decide (p.1 = a)).getLast? = some (a, c)
      ∧ lookupA a (workingAddress i2c_addresses channels busy_addr) = some c
      ∧ c ∈ (reallocRun fail (workingAddress i2c_addresses channels busy_addr)).enabled)
    ∧ (∀ p ∈ ((i2c_addresses.zip channels).filter fun p => decide (p.1 = a)).dropLast,
        p.2 ∉ (reallocRun fail (workingAddress i2c_addresses channels busy_addr)).enabled)
    ∧ ((workingAddress i2c_addresses channels busy_addr).map Prod.fst).count a = 1
    ∧ (buildLoop (openOk (liveAddrs busy_addr
          (reallocRun fail (workingAddress i2c_addresses channels busy_addr)).reassigned)
          openFail) (i2c_addresses.zip offsets)).attempts = i2c_addresses := by
  have hzipsnd : ((i2c_addresses.zip channels).map Prod.snd).Nodup := by
    rw [List.map_snd_zip _ _ hlen]
    exact hch
  have hA_ne : ((i2c_addresses.zip channels).filter fun p => decide (p.1 = a)) ≠ [] := by
    intro h
    rw [h] at hdup
    simp at hdup
  obtain ⟨q, hq⟩ :
      ∃ q, ((i2c_addresses.zip channels).filter fun p => decide (p.1 = a)).getLast?
        = some q := by
    cases h : ((i2c_addresses.zip channels).filter fun p => decide (p.1 = a)).getLast? with
    | none => exact absurd (List.getLast?_eq_none_iff.1 h) hA_ne
    | some q => exact ⟨q, rfl⟩
  have hqA : q ∈ (i2c_addresses.zip channels).filter fun p => decide (p.1 = a) :=
    List.mem_of_getLast?_eq_some hq
  have hqa : q.1 = a := by simpa using (List.mem_filter.1 hqA).2
  have hqzip : q ∈ i2c_addresses.zip channels := (List.mem_filter.1 hqA).1
  have hlook : lookupA a (workingAddress i2c_addresses channels busy_addr) = some q.2 := by
    rw [workingAddress_lookupA i2c_addresses channels busy_addr a hnb, hq]
    rfl
  have hqwa : (a, q.2) ∈ workingAddress i2c_addresses channels busy_addr :=
    lookupA_mem hlook
  refine ⟨⟨q.2, ?_, hlook, ?_⟩, ?_, ?_, ?_⟩
  · rw [hq, ← hqa]
  · rw [reallocRun_enabled]
    exact List.mem_map.2 ⟨(a, q.2), hqwa, rfl⟩
  · intro p hp hcontra
    have hpA : p ∈ (i2c_addresses.zip channels).filter fun x => decide (x.1 = a) :=
      (List.dropLast_sublist _).mem hp
    have hpa : p.1 = a := by simpa using (List.mem_filter.1 hpA).2
    have hpzip : p ∈ i2c_addresses.zip channels := (List.mem_filter.1 hpA).1
    rw [reallocRun_enabled] at hcontra
    rcases List.mem_map.1 hcontra with ⟨e, he, hec⟩
    have hezip : e ∈ i2c_addresses.zip channels := (workingAddress_mem e he).1
    have hep : e = p := List.inj_on_of_nodup_map hzipsnd hezip hpzip hec
    subst hep
    have hewa2 : (a, e.2) ∈ workingAddress i2c_addresses channels busy_addr := by
      have : e = (a, e.2) := Prod.ext hpa rfl
      exact this ▸ he
    have : lookupA a (workingAddress i2c_addresses channels busy_addr) = some e.2 :=
      mem_lookupA (workingAddress_keys_nodup i2c_addresses channels busy_addr) hewa2
    have heq2 : e.2 = q.2 := by
      rw [this] at hlook
      exact Option.some.inj hlook
    have hepq : e = q := by
      refine Prod.ext ?_ heq2
      rw [hpa, hqa]
    -- but then the last element also occurs in dropLast, contradicting Nodup
    have hAnodup : ((i2c_addresses.zip channels).filter fun x => decide (x.1 = a)).Nodup :=
      ((List.filter_sublist _).map Prod.snd |>.nodup hzipsnd).of_map Prod.snd
    obtain ⟨ys, hys⟩ := List.getLast?_eq_some_iff.1 hq
    rw [hys] at hAnodup hp
    have hyq : q ∉ ys := by
      rw [List.nodup_append] at hAnodup
      exact fun hyq => hAnodup.2.2 hyq (List.mem_singleton_self q)
    rw [List.dropLast_concat] at hp
    exact hyq (hepq ▸ hp)
  · exact List.count_eq_one_of_mem (workingAddress_keys_nodup i2c_addresses channels busy_addr)
      (by simpa using List.mem_map_of_mem Prod.fst hqwa)
  · rw [buildLoop_attempts]
    exact List.map_fst_zip _ _ hlen2

theorem C9_witness :
    (48 : Int) ∉ ([] : List Int)
    ∧ ((∃ c : Nat,
        ((([48, 48] : List Int).zip ([1, 2] : List Nat)).filter
            fun p => decide (p.1 = 48)).getLast? = some (48, c)
        ∧ lookupA 48 (workingAddress [48, 48] [1, 2] []) = some c
        ∧ c ∈ (reallocRun (fun _ => false) (workingAddress [48, 48] [1, 2] [])).enabled)
      ∧ (∀ p ∈ ((([48, 48] : List Int).zip ([1, 2] : List Nat)).filter
            fun p => decide (p.1 = 48)).dropLast,
          p.2 ∉ (reallocRun (fun _ => false) (workingAddress [48, 48] [1, 2] [])).enabled)
      ∧ ((workingAddress [48, 48] [1, 2] []).map Prod.fst).count 48 = 1
      ∧ (buildLoop (openOk (liveAddrs []
            (reallocRun (fun _ => false) (workingAddress [48, 48] [1, 2] [])).reassigned)
            (fun _ => false)) (([48, 48] : List Int).zip ([5, 7] : List Int))).attempts
          = [48, 48]) :=
  ⟨by decide,
    C9_duplicate_addresses_last_wins [1, 2] [48, 48] [5, 7] []
      (fun _ => false) (fun _ => false) 48
      (by decide) (by decide) (by decide) (by decide) (by decide)⟩

end VL6180xMulti
